import Mathlib

/-
Verification of the ALICE data explorer pipeline (alice_data_consolidator.py,
alice_tiger_integration.py, alice_census_integration.py) by shallow embedding.
Strings are modelled as lists of characters; pandas float columns with NaN
are modelled by the type PVal (null / +inf / -inf / finite rational).
-/

/-- Python str.lower for a single ASCII character. -/
def lowerChar (c : Char) : Char :=
  if 'A' ≤ c ∧ c ≤ 'Z' then Char.ofNat (c.toNat + 32) else c

/-- Python str.lower over a string, modelled on the character list. -/
def lowerStr (s : String) : List Char :=
  s.toList.map lowerChar

/-- Embeds `str.split('.')[0]`: the portion of the string before the first
decimal point. -/
def beforeDot (s : List Char) : List Char :=
  s.takeWhile (fun c => c != '.')

/-- Embeds Python `str.zfill(5)`: if the string has length at least 5 it is
returned unchanged; otherwise it is left-padded with zeros to width 5, with a
leading sign character kept in front of the padding. -/
def zfill5 (s : List Char) : List Char :=
  if 5 ≤ s.length then s
  else
    match s with
    | [] => List.replicate 5 '0'
    | c :: rest =>
      if c = '+' ∨ c = '-' then c :: (List.replicate (5 - s.length) '0' ++ rest)
      else List.replicate (5 - s.length) '0' ++ s

/-- Embeds the FIPS canonicalization used in load_alice_data and
create_county_choropleth_data:
`df['GEO id2'].astype(str).str.split('.').str[0].str.zfill(5)`. -/
def canonicalize (s : List Char) : List Char :=
  zfill5 (beforeDot s)

/-- Embeds the validity test actually applied by the code
(`alice_df['FIPS'].str.len() == 5`): a record is kept for the primary join
exactly when the canonicalized identifier has length 5. -/
def validFips (s : List Char) : Bool :=
  (canonicalize s).length == 5

/-- Length after zfill5 is the maximum of 5 and the input length. -/
theorem zfill5_length (s : List Char) : (zfill5 s).length = max 5 s.length := by
  unfold zfill5
  by_cases h : 5 ≤ s.length
  · simp only [h, if_true]
    omega
  · simp only [h, if_false]
    cases s with
    | nil => simp
    | cons c rest =>
      by_cases hc : c = '+' ∨ c = '-'
      · simp only [hc, if_true]
        simp only [List.length_cons, List.length_append, List.length_replicate] at *
        omega
      · simp only [hc, if_false]
        simp only [List.length_cons, List.length_append, List.length_replicate] at *
        omega

/-- zfill5 introduces no new characters apart from the padding zeros. -/
theorem zfill5_no_dot (s : List Char) (h : '.' ∉ s) : '.' ∉ zfill5 s := by
  unfold zfill5
  by_cases h5 : 5 ≤ s.length
  · simpa [h5]
  · simp only [h5, if_false]
    cases s with
    | nil =>
      simp [List.mem_replicate]
    | cons c rest =>
      by_cases hc : c = '+' ∨ c = '-'
      · simp only [hc, if_true]
        intro hmem
        rcases List.mem_cons.mp hmem with hmem | hmem
        · rcases hc with hc | hc <;> simp_all
        · rcases List.mem_append.mp hmem with hmem | hmem
          · exact absurd (List.eq_of_mem_replicate hmem) (by decide)
          · exact h (List.mem_cons_of_mem c hmem)
      · simp only [hc, if_false]
        intro hmem
        rcases List.mem_append.mp hmem with hmem | hmem
        · exact absurd (List.eq_of_mem_replicate hmem) (by decide)
        · exact h hmem

/-- beforeDot keeps no decimal point. -/
theorem beforeDot_no_dot (s : List Char) : '.' ∉ beforeDot s := by
  intro h
  have := List.mem_takeWhile_imp h
  simp at this

/-- On a string without a decimal point, beforeDot is the identity. -/
theorem beforeDot_eq_self (s : List Char) (h : '.' ∉ s) : beforeDot s = s := by
  unfold beforeDot
  induction s with
  | nil => rfl
  | cons c rest ih =>
    have hc : c ≠ '.' := fun hce => h (hce ▸ List.mem_cons_self c rest)
    have hrest : '.' ∉ rest := fun hm => h (List.mem_cons_of_mem c hm)
    have hcb : (c != '.') = true := by simpa using hc
    simp only [List.takeWhile_cons, hcb]
    exact congrArg (c :: ·) (ih hrest)

/-- zfill5 leaves a string of length at least 5 unchanged. -/
theorem zfill5_of_long (s : List Char) (h : 5 ≤ s.length) : zfill5 s = s := by
  unfold zfill5
  simp [h]

/-- The canonical form never contains a decimal point. -/
theorem canonicalize_no_dot (s : List Char) : '.' ∉ canonicalize s :=
  zfill5_no_dot _ (beforeDot_no_dot s)

/-- The canonical form always has length max 5 (length of the pre-dot part). -/
theorem canonicalize_length (s : List Char) :
    (canonicalize s).length = max 5 (beforeDot s).length :=
  zfill5_length _

/-- C9: canonicalization is idempotent — for every raw identifier whose
canonical form is valid (length 5, the code's validity test), canonicalizing
the canonical form returns it unchanged. -/
theorem canon_idempotent (s : List Char) (h : (canonicalize s).length = 5) :
    canonicalize (canonicalize s) = canonicalize s := by
  show zfill5 (beforeDot (canonicalize s)) = canonicalize s
  rw [beforeDot_eq_self _ (canonicalize_no_dot s)]
  exact zfill5_of_long _ (le_of_eq h.symm)

/-- Witness for C9 at the concrete raw identifier "6037.0" (which the code
canonicalizes to "06037"). -/
theorem canon_idempotent_witness :
    (canonicalize ("6037.0".toList)).length = 5 ∧
      canonicalize (canonicalize ("6037.0".toList)) = canonicalize ("6037.0".toList) :=
  ⟨by decide, canon_idempotent _ (by decide)⟩

/-- C3 counterexample: the code's validity test accepts the canonical form of
"abcde" (length 5) even though it is not composed entirely of digits, so the
claimed all-digit condition is not part of the code's check. -/
theorem canon_digit_check_absent :
    validFips ("abcde".toList) = true ∧
      (canonicalize ("abcde".toList)).all Char.isDigit = false := by
  decide

/-- C3 amended: canonicalization truncates from the first decimal point and
left-pads with zeros to width 5; the code marks the result invalid exactly when
its length differs from 5 (equivalently, when the pre-dot part is longer than
5 characters) — there is no all-digit check; a pre-dot part longer than 5 is
kept whole (never right-truncated) and is invalid by the length test. -/
theorem canon_valid_iff_length (s : List Char) :
    (validFips s = true ↔ (beforeDot s).length ≤ 5)
      ∧ (canonicalize s).length = max 5 (beforeDot s).length
      ∧ (5 < (beforeDot s).length →
          validFips s = false ∧ canonicalize s = beforeDot s) := by
  refine ⟨?_, canonicalize_length s, ?_⟩
  · unfold validFips
    rw [beq_iff_eq, canonicalize_length s]
    omega
  · intro hlong
    constructor
    · unfold validFips
      rw [show (((canonicalize s).length == 5) = false) ↔ ¬((canonicalize s).length = 5) by
        simp]
      rw [canonicalize_length s]
      omega
    · exact zfill5_of_long _ (by omega)

/-- Witness for C3 amended at the concrete raw identifier "123456.7": the
pre-dot part "123456" has length 6, so the record is invalid and the canonical
form is the whole untruncated pre-dot part. -/
theorem canon_valid_iff_length_witness :
    validFips ("123456.7".toList) = false ∧
      canonicalize ("123456.7".toList) = "123456".toList :=
  (canon_valid_iff_length _).2.2 (by decide)

/-- Models a value of a pandas numeric column: NaN (null), positive or
negative infinity, or a finite number (rationals stand in for floats; the
values appearing in the claims are exactly representable). -/
inductive PVal where
  | null : PVal
  | pinf : PVal
  | ninf : PVal
  | fin : ℚ → PVal
deriving DecidableEq

/-- Models pandas notna: everything except NaN, including infinities. -/
def PVal.notna : PVal → Bool
  | PVal.null => false
  | _ => true

/-- Elementwise division of pandas float columns: division by zero yields a
signed infinity for a nonzero numerator and NaN for 0/0; NaN propagates. -/
def divv : PVal → PVal → PVal
  | PVal.null, _ => PVal.null
  | _, PVal.null => PVal.null
  | PVal.fin a, PVal.fin b =>
      if b = 0 then
        if 0 < a then PVal.pinf else if a < 0 then PVal.ninf else PVal.null
      else PVal.fin (a / b)
  | PVal.fin _, PVal.pinf => PVal.fin 0
  | PVal.fin _, PVal.ninf => PVal.fin 0
  | PVal.pinf, PVal.fin b => if 0 ≤ b then PVal.pinf else PVal.ninf
  | PVal.ninf, PVal.fin b => if 0 ≤ b then PVal.ninf else PVal.pinf
  | PVal.pinf, PVal.pinf => PVal.null
  | PVal.pinf, PVal.ninf => PVal.null
  | PVal.ninf, PVal.pinf => PVal.null
  | PVal.ninf, PVal.ninf => PVal.null

/-- Elementwise multiplication of pandas float columns (IEEE semantics:
infinity times zero is NaN; NaN propagates). -/
def mulv : PVal → PVal → PVal
  | PVal.null, _ => PVal.null
  | _, PVal.null => PVal.null
  | PVal.fin a, PVal.fin b => PVal.fin (a * b)
  | PVal.pinf, PVal.fin b =>
      if 0 < b then PVal.pinf else if b < 0 then PVal.ninf else PVal.null
  | PVal.fin a, PVal.pinf =>
      if 0 < a then PVal.pinf else if a < 0 then PVal.ninf else PVal.null
  | PVal.ninf, PVal.fin b =>
      if 0 < b then PVal.ninf else if b < 0 then PVal.pinf else PVal.null
  | PVal.fin a, PVal.ninf =>
      if 0 < a then PVal.ninf else if a < 0 then PVal.pinf else PVal.null
  | PVal.pinf, PVal.pinf => PVal.pinf
  | PVal.pinf, PVal.ninf => PVal.ninf
  | PVal.ninf, PVal.pinf => PVal.ninf
  | PVal.ninf, PVal.ninf => PVal.pinf

/-- Elementwise addition of pandas float columns (infinity plus opposite
infinity is NaN; NaN propagates). -/
def addv : PVal → PVal → PVal
  | PVal.null, _ => PVal.null
  | _, PVal.null => PVal.null
  | PVal.fin a, PVal.fin b => PVal.fin (a + b)
  | PVal.pinf, PVal.ninf => PVal.null
  | PVal.ninf, PVal.pinf => PVal.null
  | PVal.pinf, _ => PVal.pinf
  | _, PVal.pinf => PVal.pinf
  | PVal.ninf, _ => PVal.ninf
  | _, PVal.ninf => PVal.ninf

/-- Rounds a rational to the nearest integer with ties to even — the rounding
performed by numpy/pandas round (banker's rounding), which all .round calls in
the code use. -/
def rint (q : ℚ) : ℤ :=
  if q - ⌊q⌋ < 1/2 then ⌊q⌋
  else if 1/2 < q - ⌊q⌋ then ⌊q⌋ + 1
  else if Even ⌊q⌋ then ⌊q⌋ else ⌊q⌋ + 1

/-- Embeds Series.round(2): scale by 100, round to nearest integer with ties
to even, scale back. -/
def round2 (q : ℚ) : ℚ :=
  (rint (q * 100) : ℚ) / 100

/-- Series.round(2) lifted to pandas values (numpy round keeps NaN and
infinities unchanged). -/
def round2v : PVal → PVal
  | PVal.fin q => PVal.fin (round2 q)
  | v => v

/-- Series.round(0) lifted to pandas values. -/
def rint0v : PVal → PVal
  | PVal.fin q => PVal.fin (rint q : ℚ)
  | v => v

/-- Embeds the percentage computation of clean_county_data, e.g.
`(df['Poverty Households'] / df['Households'] * 100).round(2)`, for one row
with numerator num and denominator hh. -/
def pctOf (num hh : PVal) : PVal :=
  round2v (mulv (divv num hh) (PVal.fin 100))

/-- Poverty_Percentage of clean_county_data for one row. -/
def povPctV (pov hh : PVal) : PVal := pctOf pov hh

/-- ALICE_Percentage of clean_county_data for one row. -/
def alicePctV (al hh : PVal) : PVal := pctOf al hh

/-- Above_ALICE_Percentage of clean_county_data for one row. -/
def abovePctV (ab hh : PVal) : PVal := pctOf ab hh

/-- Below_ALICE_Threshold_Percentage of clean_county_data for one row: the
numerator is Poverty Households + ALICE Households. -/
def belowPctV (pov al hh : PVal) : PVal := pctOf (addv pov al) hh

/-- Embeds integrate_all_data line
`(merged_gdf['Total_Population'] * merged_gdf['ALICE_Percentage'] / 100).round(0)`
for one row. -/
def alicePopV (pop pct : PVal) : PVal :=
  rint0v (divv (mulv pop pct) (PVal.fin 100))

/-- Null inputs (NaN) propagate: a percentage with a null numerator or null
denominator is null. -/
theorem pctOf_null (p h : PVal) (hn : p = PVal.null ∨ h = PVal.null) :
    (pctOf p h).notna = false := by
  rcases hn with rfl | rfl
  · cases h <;> rfl
  · cases p <;> rfl

/-- Unfolding equation for division of two finite values. -/
theorem divv_fin_fin (a b : ℚ) :
    divv (PVal.fin a) (PVal.fin b) =
      if b = 0 then
        if 0 < a then PVal.pinf else if a < 0 then PVal.ninf else PVal.null
      else PVal.fin (a / b) := rfl

/-- Unfolding equation for multiplication of two finite values. -/
theorem mulv_fin_fin (a b : ℚ) :
    mulv (PVal.fin a) (PVal.fin b) = PVal.fin (a * b) := rfl

/-- Unfolding equation for multiplication of +infinity by a finite value. -/
theorem mulv_pinf_fin (b : ℚ) :
    mulv PVal.pinf (PVal.fin b) =
      if 0 < b then PVal.pinf else if b < 0 then PVal.ninf else PVal.null := rfl

/-- Unfolding equation for multiplication of -infinity by a finite value. -/
theorem mulv_ninf_fin (b : ℚ) :
    mulv PVal.ninf (PVal.fin b) =
      if 0 < b then PVal.ninf else if b < 0 then PVal.pinf else PVal.null := rfl

/-- Non-nullness of a percentage of finite inputs: the result is null exactly
when both the numerator and the denominator are zero (0/0 gives NaN); a
nonzero numerator over a zero denominator gives a signed infinity, which is
not null. -/
theorem pctOf_fin_notna (n h : ℚ) :
    (pctOf (PVal.fin n) (PVal.fin h)).notna = true ↔ (h ≠ 0 ∨ n ≠ 0) := by
  unfold pctOf
  rw [divv_fin_fin]
  by_cases h0 : h = 0
  · rw [if_pos h0]
    rcases lt_trichotomy 0 n with hn | hn | hn
    · rw [if_pos hn, mulv_pinf_fin, if_pos (by norm_num : (0:ℚ) < 100)]
      exact iff_of_true rfl (Or.inr (ne_of_gt hn))
    · subst hn
      rw [if_neg (lt_irrefl 0), if_neg (lt_irrefl 0)]
      exact iff_of_false (by simp [mulv, round2v, PVal.notna]) (by simp [h0])
    · rw [if_neg (not_lt.mpr hn.le), if_pos hn, mulv_ninf_fin,
        if_pos (by norm_num : (0:ℚ) < 100)]
      exact iff_of_true rfl (Or.inr (ne_of_lt hn))
  · rw [if_neg h0, mulv_fin_fin]
    exact iff_of_true rfl (Or.inl h0)

/-- C1 counterexample: in clean_county_data, a row with Households = 0 and
Poverty Households = 5 produces Poverty_Percentage = +infinity, which pandas
notna reports as non-null — contradicting the claim that every percentage
field is null when households = 0. -/
theorem pct_households_zero_not_null :
    (povPctV (PVal.fin 5) (PVal.fin 0)).notna = true ∧
      povPctV (PVal.fin 5) (PVal.fin 0) = PVal.pinf := by
  decide

/-- C1 amended: a derived percentage of finite inputs is non-null iff the
denominator or the numerator is nonzero — a zero Households count yields null
only when the numerator is also zero (0/0 = NaN), and a signed infinity
(non-null) otherwise; null numerators or denominators propagate to a null
percentage; the computation is total, never a division fault. -/
theorem pct_notna_characterization (pv al ab hv : ℚ) :
    ((povPctV (PVal.fin pv) (PVal.fin hv)).notna = true ↔ (hv ≠ 0 ∨ pv ≠ 0))
      ∧ ((alicePctV (PVal.fin al) (PVal.fin hv)).notna = true ↔ (hv ≠ 0 ∨ al ≠ 0))
      ∧ ((abovePctV (PVal.fin ab) (PVal.fin hv)).notna = true ↔ (hv ≠ 0 ∨ ab ≠ 0))
      ∧ ((belowPctV (PVal.fin pv) (PVal.fin al) (PVal.fin hv)).notna = true ↔
          (hv ≠ 0 ∨ pv + al ≠ 0))
      ∧ (∀ p h : PVal, p = PVal.null ∨ h = PVal.null → (pctOf p h).notna = false) :=
  ⟨pctOf_fin_notna pv hv, pctOf_fin_notna al hv, pctOf_fin_notna ab hv,
    pctOf_fin_notna (pv + al) hv, pctOf_null⟩

/-- Witness for C1 amended at the concrete row households = 1000,
poverty = 150 (percentage non-null) and at a null numerator (null result). -/
theorem pct_notna_characterization_witness :
    ((povPctV (PVal.fin 150) (PVal.fin 1000)).notna = true ↔
        ((1000 : ℚ) ≠ 0 ∨ (150 : ℚ) ≠ 0))
      ∧ (pctOf PVal.null (PVal.fin 1000)).notna = false :=
  ⟨(pct_notna_characterization 150 0 0 1000).1,
    (pct_notna_characterization 150 0 0 1000).2.2.2.2 PVal.null (PVal.fin 1000)
      (Or.inl rfl)⟩

/-- Follows the spec's words only (for comparison with the code's rint):
round-half-away-from-zero to the nearest integer. -/
def specRintAway (q : ℚ) : ℤ :=
  if q - ⌊q⌋ < 1/2 then ⌊q⌋
  else if 1/2 < q - ⌊q⌋ then ⌊q⌋ + 1
  else if q < 0 then ⌊q⌋ else ⌊q⌋ + 1

/-- Follows the spec's words only: two-decimal round-half-away-from-zero. -/
def specRoundAway2 (q : ℚ) : ℚ :=
  (specRintAway (q * 100) : ℚ) / 100

/-- The code's rounding rint is round to nearest with ties to even. -/
theorem rintClose (q : ℚ) :
    |q - (rint q : ℚ)| < 1/2 ∨ (|q - (rint q : ℚ)| = 1/2 ∧ Even (rint q)) := by
  have hfl : ((⌊q⌋ : ℤ) : ℚ) ≤ q := Int.floor_le q
  have hfu : q < (⌊q⌋ : ℚ) + 1 := Int.lt_floor_add_one q
  unfold rint
  by_cases h1 : q - (⌊q⌋ : ℚ) < 1/2
  · left
    simp only [if_pos h1]
    rw [abs_of_nonneg (by linarith)]
    linarith
  · by_cases h2 : (1:ℚ)/2 < q - (⌊q⌋ : ℚ)
    · left
      simp only [if_neg h1, if_pos h2]
      push_cast
      rw [abs_of_nonpos (by linarith)]
      linarith
    · have hr : q - (⌊q⌋ : ℚ) = 1/2 := le_antisymm (not_lt.mp h2) (not_lt.mp h1)
      right
      by_cases he : Even ⌊q⌋
      · simp only [if_neg h1, if_neg h2, if_pos he]
        exact ⟨by rw [abs_of_nonneg (by linarith)]; linarith, he⟩
      · simp only [if_neg h1, if_neg h2, if_neg he]
        refine ⟨?_, Int.even_add_one.mpr he⟩
        push_cast
        rw [abs_of_nonpos (by linarith)]
        linarith

/-- C4 counterexample: the code rounds half to even, not half away from zero.
For Poverty Households = 1, Households = 800 the exact percentage is 0.125 and
clean_county_data produces 0.12 (= 3/25), while round-half-away-from-zero
would give 0.13; for Total_Population = 5 and ALICE_Percentage = 50,
integrate_all_data produces ALICE_Population = 2 (2.5 rounds to the even 2),
while round-half-away-from-zero would give 3. -/
theorem rounding_not_half_away :
    povPctV (PVal.fin 1) (PVal.fin 800) = PVal.fin (3/25)
      ∧ specRoundAway2 (1/8) = 13/100
      ∧ (3/25 : ℚ) ≠ 13/100
      ∧ alicePopV (PVal.fin 5) (PVal.fin 50) = PVal.fin 2
      ∧ specRintAway (5 * 50 / 100) = 3
      ∧ (2 : ℚ) ≠ 3 := by
  have hf12 : ⌊(25/2 : ℚ)⌋ = 12 := by
    rw [Int.floor_eq_iff]
    norm_num
  have hf2 : ⌊(5/2 : ℚ)⌋ = 2 := by
    rw [Int.floor_eq_iff]
    norm_num
  have hr12 : rint (25/2) = 12 := by
    unfold rint
    rw [hf12]
    rw [if_neg (by norm_num), if_neg (by norm_num), if_pos (by decide)]
  have hr2 : rint (5/2) = 2 := by
    unfold rint
    rw [hf2]
    rw [if_neg (by norm_num), if_neg (by norm_num), if_pos (by decide)]
  have ha12 : specRintAway (25/2) = 13 := by
    unfold specRintAway
    rw [hf12]
    rw [if_neg (by norm_num), if_neg (by norm_num), if_neg (by norm_num)]
    norm_num
  refine ⟨?_, ?_, by norm_num, ?_, ?_, by norm_num⟩
  · show round2v (mulv (divv (PVal.fin 1) (PVal.fin 800)) (PVal.fin 100)) = _
    rw [divv_fin_fin, if_neg (by norm_num : (800:ℚ) ≠ 0), mulv_fin_fin]
    show PVal.fin (round2 (1 / 800 * 100)) = _
    unfold round2
    rw [show (1/800 : ℚ) * 100 * 100 = 25/2 by norm_num, hr12]
    norm_num
  · unfold specRoundAway2
    rw [show (1/8 : ℚ) * 100 = 25/2 by norm_num, ha12]
    norm_num
  · show rint0v (divv (mulv (PVal.fin 5) (PVal.fin 50)) (PVal.fin 100)) = _
    rw [mulv_fin_fin, show (5:ℚ) * 50 = 250 by norm_num, divv_fin_fin,
      if_neg (by norm_num : (100:ℚ) ≠ 0), show (250:ℚ)/100 = 5/2 by norm_num]
    show PVal.fin ((rint (5/2) : ℚ)) = _
    rw [hr2]
    norm_num
  · rw [show (5 : ℚ) * 50 / 100 = 5/2 by norm_num]
    unfold specRintAway
    rw [hf2]
    rw [if_neg (by norm_num), if_neg (by norm_num), if_neg (by norm_num)]
    norm_num

/-- C4 amended: all rounding of derived metrics is round-half-to-even
(banker's rounding, numpy's default): rint rounds to the nearest integer with
ties to the even neighbour, and the two-decimal rounding round2 is within
1/200 of the exact value. -/
theorem rounding_is_half_even (q : ℚ) :
    (|q - (rint q : ℚ)| < 1/2 ∨ (|q - (rint q : ℚ)| = 1/2 ∧ Even (rint q)))
      ∧ |q - round2 q| ≤ 1/200 := by
  refine ⟨rintClose q, ?_⟩
  have h : |q * 100 - (rint (q * 100) : ℚ)| ≤ 1/2 := by
    rcases rintClose (q * 100) with h | h
    · exact le_of_lt h
    · exact le_of_eq h.1
  unfold round2
  rw [show q - (rint (q * 100) : ℚ) / 100 = (q * 100 - (rint (q * 100) : ℚ)) / 100 by
    ring]
  rw [abs_div]
  rw [show |(100 : ℚ)| = 100 by norm_num]
  linarith

/-- One county boundary row of the Tiger shapefile (counties_gdf): GEOID,
STUSPS, NAME and the polygon geometry (kept abstract as a number). -/
structure BoundaryRow where
  geoid : String
  stusps : String
  name : String
  geom : Nat
deriving DecidableEq

/-- One ALICE attribute record after FIPS canonicalization: the columns that
participate in the joins of create_county_choropleth_data. -/
structure AliceAttrRow where
  fips : String
  state : Option String
  county : Option String
  households : Option ℚ
  povertyPct : Option ℚ
  alicePct : Option ℚ
  belowPct : Option ℚ
  abovePct : Option ℚ
deriving DecidableEq

/-- One row of merged_gdf: the boundary columns together with the (possibly
null) ALICE columns brought in by the merge. -/
structure MergedRow where
  geoid : String
  stusps : String
  name : String
  geom : Nat
  state : Option String
  county : Option String
  households : Option ℚ
  povertyPct : Option ℚ
  alicePct : Option ℚ
  belowPct : Option ℚ
  abovePct : Option ℚ
deriving DecidableEq

/-- A boundary row paired with a matching ALICE record. -/
def mkMatched (b : BoundaryRow) (a : AliceAttrRow) : MergedRow :=
  { geoid := b.geoid, stusps := b.stusps, name := b.name, geom := b.geom,
    state := a.state, county := a.county, households := a.households,
    povertyPct := a.povertyPct, alicePct := a.alicePct,
    belowPct := a.belowPct, abovePct := a.abovePct }

/-- A boundary row with no ALICE match: all attribute columns are null. -/
def mkUnmatched (b : BoundaryRow) : MergedRow :=
  { geoid := b.geoid, stusps := b.stusps, name := b.name, geom := b.geom,
    state := none, county := none, households := none,
    povertyPct := none, alicePct := none, belowPct := none, abovePct := none }

/-- The output rows a single boundary row contributes to the pandas left
merge `counties_gdf.merge(valid_fips_alice, left_on='GEOID', right_on='FIPS',
how='left')`: one row per matching attribute record, in attribute input
order, or a single all-null row when nothing matches. -/
def rowsFor (attrs : List AliceAttrRow) (b : BoundaryRow) : List MergedRow :=
  if (attrs.filter (fun a => a.fips == b.geoid)).isEmpty then [mkUnmatched b]
  else (attrs.filter (fun a => a.fips == b.geoid)).map (mkMatched b)

/-- Embeds the pandas left merge of create_county_choropleth_data: boundary
rows in order, each replaced by its matching rows. -/
def leftMerge : List BoundaryRow → List AliceAttrRow → List MergedRow
  | [], _ => []
  | b :: cs, attrs => rowsFor attrs b ++ leftMerge cs attrs

/-- The state_mapping dictionary of create_county_choropleth_data, entry for
entry. -/
def stateMapping : List (String × String) :=
  [("Alabama", "AL"), ("Alaska", "AK"), ("Arizona", "AZ"), ("Arkansas", "AR"),
   ("California", "CA"), ("Colorado", "CO"), ("Connecticut", "CT"),
   ("Delaware", "DE"), ("Florida", "FL"), ("Georgia", "GA"), ("Hawaii", "HI"),
   ("Idaho", "ID"), ("Illinois", "IL"), ("Indiana", "IN"), ("Iowa", "IA"),
   ("Kansas", "KS"), ("Kentucky", "KY"), ("Louisiana", "LA"), ("Maine", "ME"),
   ("Maryland", "MD"), ("Massachusetts", "MA"), ("Michigan", "MI"),
   ("Minnesota", "MN"), ("Mississippi", "MS"), ("Missouri", "MO"),
   ("Montana", "MT"), ("Nebraska", "NE"), ("Nevada", "NV"),
   ("New Hampshire", "NH"), ("New Jersey", "NJ"), ("New Mexico", "NM"),
   ("New York", "NY"), ("North Carolina", "NC"), ("North Dakota", "ND"),
   ("Ohio", "OH"), ("Oklahoma", "OK"), ("Oregon", "OR"),
   ("Pennsylvania", "PA"), ("Rhode Island", "RI"), ("South Carolina", "SC"),
   ("South Dakota", "SD"), ("Tennessee", "TN"), ("Texas", "TX"),
   ("Utah", "UT"), ("Vermont", "VT"), ("Virginia", "VA"),
   ("Washington", "WA"), ("West Virginia", "WV"), ("Wisconsin", "WI"),
   ("Wyoming", "WY")]

/-- Embeds `missing_fips_alice['State'].map(state_mapping)` for one record:
none when the state name is absent or unmapped. -/
def stateAbbrOf (a : AliceAttrRow) : Option String :=
  a.state.bind (fun st => List.lookup st stateMapping)

/-- Overwrites the ALICE metric columns of a merged row from a fallback
record, skipping null source values
(`if col in alice_row and pd.notna(alice_row[col])`), and sets State and
County; the boundary columns GEOID, STUSPS, NAME and geometry are untouched. -/
def updateMetrics (r : MergedRow) (a : AliceAttrRow) : MergedRow :=
  { r with
    households := if a.households.isSome then a.households else r.households,
    povertyPct := if a.povertyPct.isSome then a.povertyPct else r.povertyPct,
    alicePct := if a.alicePct.isSome then a.alicePct else r.alicePct,
    belowPct := if a.belowPct.isSome then a.belowPct else r.belowPct,
    abovePct := if a.abovePct.isSome then a.abovePct else r.abovePct,
    state := a.state, county := a.county }

/-- One iteration of the secondary-join loop of
create_county_choropleth_data: skip when County or State_Abbr is null; find
the boundary rows with matching state abbreviation and case-insensitive
county name; on a unique match overwrite every merged row carrying that GEOID
(there is no check that the row was unmatched in phase 1). -/
def applyFallback (cs : List BoundaryRow) (m : List MergedRow)
    (a : AliceAttrRow) : List MergedRow :=
  match a.county, stateAbbrOf a with
  | some cty, some ab =>
    match cs.filter (fun b => b.stusps == ab && lowerStr b.name == lowerStr cty) with
    | [bm] => m.map (fun r => if r.geoid == bm.geoid then updateMetrics r a else r)
    | _ => m
  | _, _ => m

/-- Embeds the whole secondary-join loop: the missing-FIPS records are applied
in input enumeration order. -/
def fallbackPass (cs : List BoundaryRow) (attrs : List AliceAttrRow)
    (m : List MergedRow) : List MergedRow :=
  attrs.foldl (applyFallback cs) m

/-- The boundary-owned columns of a merged row: GEOID, STUSPS, NAME,
geometry. -/
def boundaryPart (r : MergedRow) : String × String × String × Nat :=
  (r.geoid, r.stusps, r.name, r.geom)

/-- Every boundary row contributes at least one merged row. -/
theorem rowsFor_length_pos (attrs : List AliceAttrRow) (b : BoundaryRow) :
    1 ≤ (rowsFor attrs b).length := by
  unfold rowsFor
  cases hl : attrs.filter (fun a => a.fips == b.geoid) with
  | nil => simp
  | cons x xs => simp

/-- A boundary row with at most one matching attribute record contributes
exactly one merged row. -/
theorem rowsFor_length_eq_one (attrs : List AliceAttrRow) (b : BoundaryRow)
    (h : (attrs.filter (fun a => a.fips == b.geoid)).length ≤ 1) :
    (rowsFor attrs b).length = 1 := by
  unfold rowsFor
  cases hl : attrs.filter (fun a => a.fips == b.geoid) with
  | nil => simp
  | cons x xs =>
    rw [hl] at h
    simp only [List.length_cons] at h
    have hxs : xs = [] := List.eq_nil_of_length_eq_zero (by omega)
    subst hxs
    simp

/-- A boundary row with no matching attribute record contributes exactly the
all-null row. -/
theorem rowsFor_unmatched (attrs : List AliceAttrRow) (b : BoundaryRow)
    (h : attrs.filter (fun a => a.fips == b.geoid) = []) :
    rowsFor attrs b = [mkUnmatched b] := by
  unfold rowsFor
  simp [h]

/-- C2 amended: the left merge never drops a boundary row (output size is at
least the boundary input size); the output size equals the boundary input
size when each boundary region matches at most one attribute record — with
duplicate matches the boundary row is emitted once per match, so equality can
fail; a boundary region matching no attribute record still appears as a row
whose attribute columns are all null. -/
theorem boundary_coverage (cs : List BoundaryRow) (attrs : List AliceAttrRow) :
    cs.length ≤ (leftMerge cs attrs).length
      ∧ ((∀ b ∈ cs, (attrs.filter (fun a => a.fips == b.geoid)).length ≤ 1) →
          (leftMerge cs attrs).length = cs.length)
      ∧ (∀ b ∈ cs, attrs.filter (fun a => a.fips == b.geoid) = [] →
          mkUnmatched b ∈ leftMerge cs attrs)
      ∧ (∀ b : BoundaryRow, (mkUnmatched b).households = none
          ∧ (mkUnmatched b).povertyPct = none ∧ (mkUnmatched b).alicePct = none
          ∧ (mkUnmatched b).belowPct = none ∧ (mkUnmatched b).abovePct = none) := by
  refine ⟨?_, ?_, ?_, fun b => ⟨rfl, rfl, rfl, rfl, rfl⟩⟩
  · induction cs with
    | nil => simp [leftMerge]
    | cons b cs ih =>
      simp only [leftMerge, List.length_append, List.length_cons]
      have := rowsFor_length_pos attrs b
      omega
  · intro hmax
    induction cs with
    | nil => simp [leftMerge]
    | cons b cs ih =>
      simp only [leftMerge, List.length_append, List.length_cons]
      rw [rowsFor_length_eq_one attrs b (hmax b (List.mem_cons_self b cs)),
        ih (fun c hc => hmax c (List.mem_cons_of_mem b hc))]
      omega
  · intro b hb hnone
    induction cs with
    | nil => exact absurd hb (List.not_mem_nil b)
    | cons c cs ih =>
      simp only [leftMerge, List.mem_append]
      rcases List.mem_cons.mp hb with rfl | hb2
      · exact Or.inl (by rw [rowsFor_unmatched attrs b hnone]; exact List.mem_singleton_self _)
      · exact Or.inr (ih hb2)

/-- Witness for C2 amended: one boundary row, no attribute records — the
merge emits exactly one row and it is the all-null row for that boundary. -/
theorem boundary_coverage_witness :
    (leftMerge [BoundaryRow.mk "01001" "AL" "Autauga" 7] []).length = 1
      ∧ mkUnmatched (BoundaryRow.mk "01001" "AL" "Autauga" 7)
          ∈ leftMerge [BoundaryRow.mk "01001" "AL" "Autauga" 7] [] := by
  have h := boundary_coverage [BoundaryRow.mk "01001" "AL" "Autauga" 7] []
  exact ⟨h.2.1 (by intro b hb; simp) , h.2.2.1 _ (List.mem_cons_self _ _) (by simp)⟩

/-- C2 counterexample: one boundary region and two attribute records with the
same canonical id — the pandas left merge emits two output rows for the one
boundary row, so the output size exceeds the boundary input size. -/
theorem boundary_coverage_duplicates :
    (leftMerge [BoundaryRow.mk "12086" "FL" "Miami-Dade" 3]
        [AliceAttrRow.mk "12086" (some "Florida") (some "Miami-Dade")
            (some 900000) (some 15) (some 30) (some 45) (some 55),
          AliceAttrRow.mk "12086" (some "Florida") (some "Miami-Dade")
            (some 900001) (some 16) (some 31) (some 47) (some 53)]).length = 2
      ∧ ([BoundaryRow.mk "12086" "FL" "Miami-Dade" 3] : List BoundaryRow).length = 1 := by
  constructor
  · rfl
  · rfl

/-- C6 counterexample: two attribute records with the same canonical region
id produce two output rows from the primary join — one per record, each
carrying its own metric values in input order — not a single
last-write-wins row. -/
theorem merge_not_last_write_wins :
    (leftMerge [BoundaryRow.mk "48201" "TX" "Harris" 9]
        [AliceAttrRow.mk "48201" (some "Texas") (some "Harris")
            (some 10) none none none none,
          AliceAttrRow.mk "48201" (some "Texas") (some "Harris")
            (some 20) none none none none]).length = 2
      ∧ (leftMerge [BoundaryRow.mk "48201" "TX" "Harris" 9]
          [AliceAttrRow.mk "48201" (some "Texas") (some "Harris")
              (some 10) none none none none,
            AliceAttrRow.mk "48201" (some "Texas") (some "Harris")
              (some 20) none none none none]).map
          (fun r => r.households) = [some 10, some 20] := by
  decide

/-- C6 amended: when several attribute records canonicalize to the same
region id, the primary join emits one output row per matching record, in
input enumeration order, each carrying that record's metric values — the
boundary row is duplicated rather than resolved last-write-wins. -/
theorem duplicate_ids_enumerated (b : BoundaryRow) (attrs : List AliceAttrRow)
    (hne : attrs ≠ []) (hall : ∀ a ∈ attrs, a.fips = b.geoid) :
    leftMerge [b] attrs = attrs.map (mkMatched b) := by
  have hf : attrs.filter (fun a => a.fips == b.geoid) = attrs :=
    List.filter_eq_self.mpr (fun a ha => by simpa using hall a ha)
  show rowsFor attrs b ++ leftMerge [] attrs = attrs.map (mkMatched b)
  rw [show leftMerge [] attrs = [] from rfl, List.append_nil]
  unfold rowsFor
  rw [hf]
  cases attrs with
  | nil => exact absurd rfl hne
  | cons x xs => simp

/-- Witness for C6 amended at two concrete duplicate records. -/
theorem duplicate_ids_enumerated_witness :
    leftMerge [BoundaryRow.mk "06037" "CA" "Los Angeles" 2]
        [AliceAttrRow.mk "06037" (some "California") (some "Los Angeles")
            (some 3)  none none none none,
          AliceAttrRow.mk "06037" (some "California") (some "Los Angeles")
            (some 4) none none none none] =
      [mkMatched (BoundaryRow.mk "06037" "CA" "Los Angeles" 2)
          (AliceAttrRow.mk "06037" (some "California") (some "Los Angeles")
            (some 3) none none none none),
        mkMatched (BoundaryRow.mk "06037" "CA" "Los Angeles" 2)
          (AliceAttrRow.mk "06037" (some "California") (some "Los Angeles")
            (some 4) none none none none)] := by
  have h := duplicate_ids_enumerated (BoundaryRow.mk "06037" "CA" "Los Angeles" 2)
    [AliceAttrRow.mk "06037" (some "California") (some "Los Angeles")
        (some 3) none none none none,
      AliceAttrRow.mk "06037" (some "California") (some "Los Angeles")
        (some 4) none none none none] (by decide) (by decide)
  simpa using h

/-- One fallback iteration never changes the boundary-owned columns of any
merged row. -/
theorem applyFallback_boundary (cs : List BoundaryRow) (m : List MergedRow)
    (a : AliceAttrRow) :
    (applyFallback cs m a).map boundaryPart = m.map boundaryPart := by
  unfold applyFallback
  split
  · split
    · rename_i bm heq
      rw [List.map_map]
      apply List.map_congr_left
      intro r hr
      by_cases hg : (r.geoid == bm.geoid) = true
      · simp only [Function.comp_apply, hg, if_true]
        rfl
      · simp only [Function.comp_apply]
        rw [if_neg hg]
    · rfl
  · rfl

/-- C5 amended: the phase-2 fallback pass touches only the attribute columns
(the five metric fields plus State and County): the boundary-owned GEOID,
STUSPS, NAME and geometry of every output row are identical to the input, and
the number of rows is unchanged; but the pass applies to every row carrying
the matched GEOID regardless of whether that row was already matched in
phase 1, so a phase-1 match can be overwritten. -/
theorem fallback_preserves_boundary (cs : List BoundaryRow)
    (attrs : List AliceAttrRow) (m : List MergedRow) :
    (fallbackPass cs attrs m).map boundaryPart = m.map boundaryPart
      ∧ (fallbackPass cs attrs m).length = m.length := by
  have hmap : (fallbackPass cs attrs m).map boundaryPart = m.map boundaryPart := by
    induction attrs generalizing m with
    | nil => rfl
    | cons a as ih =>
      calc (fallbackPass cs (a :: as) m).map boundaryPart
          = (fallbackPass cs as (applyFallback cs m a)).map boundaryPart := rfl
        _ = (applyFallback cs m a).map boundaryPart := ih (applyFallback cs m a)
        _ = m.map boundaryPart := applyFallback_boundary cs m a
  refine ⟨hmap, ?_⟩
  have := congrArg List.length hmap
  simpa using this

/-- C5 counterexample: a region matched in phase 1 (ALICE_Percentage 10) is
overwritten by a later phase-2 fallback record (ALICE_Percentage 20) for the
same county — the code applies the fallback mask without checking for an
existing phase-1 match. -/
theorem fallback_overwrites_phase1 :
    (fallbackPass [BoundaryRow.mk "01001" "AL" "Autauga" 5]
        [AliceAttrRow.mk "99" (some "Alabama") (some "Autauga")
            none none (some 20) none none]
        (leftMerge [BoundaryRow.mk "01001" "AL" "Autauga" 5]
          [AliceAttrRow.mk "01001" (some "Alabama") (some "Autauga")
              (some 100) (some 5) (some 10) (some 15) (some 85)])).map
        (fun r => r.alicePct) = [some 20]
      ∧ (leftMerge [BoundaryRow.mk "01001" "AL" "Autauga" 5]
          [AliceAttrRow.mk "01001" (some "Alabama") (some "Autauga")
              (some 100) (some 5) (some 10) (some 15) (some 85)]).map
          (fun r => r.alicePct) = [some 10] := by
  decide

/-- C7 counterexample: the state_mapping table has 50 entries, not 51, and
does not contain the federal district. -/
theorem state_mapping_no_dc :
    stateMapping.length = 50 ∧ stateMapping.length ≠ 51
      ∧ List.lookup "District of Columbia" stateMapping = none := by
  decide

/-- C7 amended: the fallback state lookup is a fixed 50-entry table covering
the 50 states only (no federal district); an attribute record whose state
name is absent or not in the table is skipped by the phase-2 loop — the
merged data is returned unchanged, with no match and no error. -/
theorem unmapped_state_skips_fallback (cs : List BoundaryRow)
    (m : List MergedRow) (a : AliceAttrRow) (h : stateAbbrOf a = none) :
    applyFallback cs m a = m ∧ stateMapping.length = 50 := by
  refine ⟨?_, rfl⟩
  unfold applyFallback
  cases hca : a.county with
  | none => rfl
  | some cty =>
    rw [h]

/-- Witness for C7 amended: a record naming the federal district is skipped
by the fallback loop. -/
theorem unmapped_state_skips_fallback_witness :
    applyFallback [BoundaryRow.mk "11001" "DC" "District of Columbia" 4]
        [mkUnmatched (BoundaryRow.mk "11001" "DC" "District of Columbia" 4)]
        (AliceAttrRow.mk "x" (some "District of Columbia")
          (some "District of Columbia") (some 1) none none none none) =
      [mkUnmatched (BoundaryRow.mk "11001" "DC" "District of Columbia" 4)]
      ∧ stateMapping.length = 50 :=
  unmapped_state_skips_fallback _ _ _ (by decide)

/-- Embeds pandas Series.mean() with its default skipna behaviour, as used by
create_summary_statistics and create_summary_stats: the mean of the non-null
values, NaN (none) when there are no non-null values. -/
def meanOpt (xs : List (Option ℚ)) : Option ℚ :=
  if (xs.filterMap id).isEmpty then none
  else some ((xs.filterMap id).sum / (xs.filterMap id).length)

/-- Mapping a list of plain values into non-null cells and taking filterMap
id returns the plain values. -/
theorem filterMap_id_map_some (l : List ℚ) : (l.map some).filterMap id = l := by
  induction l with
  | nil => rfl
  | cons x xs ih => simp [ih]

/-- C8: the reported mean is computed over non-null values only — prepending
a null cell never changes the mean, the mean depends only on the non-null
values, and a column whose non-null count is zero yields a null mean, never
zero. -/
theorem mean_nonnull_only (xs : List (Option ℚ)) :
    meanOpt (none :: xs) = meanOpt xs
      ∧ meanOpt xs = meanOpt ((xs.filterMap id).map some)
      ∧ ((∀ x ∈ xs, x = none) → meanOpt xs = none) := by
  refine ⟨?_, ?_, ?_⟩
  · simp [meanOpt]
  · unfold meanOpt
    rw [filterMap_id_map_some]
  · intro hall
    have hnil : xs.filterMap id = [] := by
      rw [List.filterMap_eq_nil_iff]
      intro a ha
      rw [hall a ha]
      rfl
    simp [meanOpt, hnil]

/-- Witness for C8 at the concrete all-null column [none]: prepending another
null keeps the mean, and the mean is null. -/
theorem mean_nonnull_only_witness :
    meanOpt [none, none] = meanOpt [none] ∧ meanOpt [none] = none :=
  ⟨(mean_nonnull_only [none]).1,
    (mean_nonnull_only [none]).2.2 (by intro x hx; simpa using hx)⟩

/-- One input row of the mock-demographics generator: the GEO id2 identifier
and the Households count of the ALICE table. -/
structure MockInRow where
  geoId2 : String
  households : Option ℚ
deriving DecidableEq

/-- One generated mock record (the structure of the dict appended by
_create_mock_demographics, restricted to representative fields). -/
structure MockOutRow where
  fips : String
  totalPopulation : ℤ
  totalHousingUnits : ℤ
  medianIncome : ℤ
deriving DecidableEq

/-- Models the numpy global pseudo-random generator: the state is a natural
number with a deterministic (linear congruential) transition. The exact
distribution of np.random.normal is abstracted — what matters for the claims
is that every draw is a pure function of the state. -/
def nextRand (s : Nat) : Nat :=
  (1103515245 * s + 12345) % 2147483648

/-- A draw of the abstracted np.random.normal: a value computed from the
current state, together with the successor state. -/
def normDraw (s : Nat) : ℤ × Nat :=
  ((s % 1001 : Nat) - 500, nextRand s)

/-- Python int(): truncation toward zero. -/
def truncQ (q : ℚ) : ℤ :=
  if 0 ≤ q then ⌊q⌋ else -⌊-q⌋

/-- Generates the mock record for one ALICE row, threading the generator
state: FIPS is canonicalized and rows with a non-5-character FIPS are skipped
before any draw is consumed; Households defaults to 10000 when null; the
rural factor is 1, 0.5 or 0.2 by the household thresholds 5000 and 25000. -/
def genMockRow (s : Nat) (r : MockInRow) : Option MockOutRow × Nat :=
  let fips := canonicalize r.geoId2.toList
  if fips.length ≠ 5 then (none, s)
  else
    let hh : ℚ := r.households.getD 10000
    let rural : ℚ := if hh < 5000 then 1 else if hh < 25000 then 1/2 else 1/5
    let urban : ℚ := 1 - rural
    let d1 := normDraw s
    let population := truncQ (hh * (23/10 + (d1.1 : ℚ) / 1000))
    let d2 := normDraw d1.2
    let income := truncQ (35000 + (d2.1 : ℚ) * 15 + urban * 20000)
    (some { fips := String.mk fips, totalPopulation := population,
            totalHousingUnits := truncQ (hh * (115/100)),
            medianIncome := income }, d2.2)

/-- Generates mock records for all ALICE rows in input order, threading the
generator state through the successive draws. -/
def genMockRows : Nat → List MockInRow → List MockOutRow
  | _, [] => []
  | s, r :: rs =>
    match genMockRow s r with
    | (none, s1) => genMockRows s1 rs
    | (some o, s1) => o :: genMockRows s1 rs

/-- Embeds _create_mock_demographics: np.random.seed(42) replaces whatever
generator state existed before the call with the state seeded from the
constant 42, so generation always starts from the same state regardless of
the ambient generator state. -/
def createMockDemographics (_ambientState : Nat) (alice : List MockInRow) :
    List MockOutRow :=
  genMockRows 42 alice

/-- C10: mock demographic generation is deterministic — for a fixed ALICE
input table, two invocations under arbitrary (different) ambient
pseudo-random generator states produce identical output records, because the
generator is re-seeded with the constant 42 before generation. -/
theorem mock_demographics_deterministic (s1 s2 : Nat) (alice : List MockInRow) :
    createMockDemographics s1 alice = createMockDemographics s2 alice := rfl
